import Mathlib

/-!
Formal model of the KSAS core (Kaesar Star Analysis System).

Shallow embedding of the components the specification talks about:
scoring (`ksas/candidate_quality_analyzer.py`), the candidate store
(`ksas/candidate_db.py`), the dedup tracker (`ksas/tracking.py`), the
vetting engine's aggregation (`ksas/vetting.py`), the worker pool
(`ksas/worker_pool.py`) and the per-target analysis pipeline
(`main.py`).  Numeric fields are modelled with `ℚ`; file contents with
explicit inductive types; the external oracles (downloader, processor,
detectors) are parameters of the pipeline step.
-/

namespace KSAS

/-! ## Configuration (`ksas/config.py`) -/

def BLS_SNR_THRESHOLD : ℚ := 10

def VETTING_ODD_EVEN_TOLERANCE : ℚ := 0.05

def VETTING_SHAPE_THRESHOLD : ℚ := 0.2

def VETTING_SECONDARY_THRESHOLD : ℚ := 0.001

def VETTING_MAX_DEPTH_DURATION_RATIO : ℚ := 0.5

/-! ## Scoring (`ksas/candidate_quality_analyzer.py`)

`pyInt` models Python's `int(...)` applied to a float: truncation
toward zero. -/

def pyInt (x : ℚ) : ℤ := if 0 ≤ x then ⌊x⌋ else ⌈x⌉

/-- Embedding of `CandidateQualityAnalyzer._score_snr` (threshold is
`BLS_SNR_THRESHOLD = 10`). -/
def score_snr (snr : ℚ) : ℚ :=
  if snr < BLS_SNR_THRESHOLD / 2 then 0
  else if snr < BLS_SNR_THRESHOLD then
    0.1 + (snr - BLS_SNR_THRESHOLD / 2) / (BLS_SNR_THRESHOLD / 2) * 0.2
  else if snr < BLS_SNR_THRESHOLD * 2 then
    0.3 + (snr - BLS_SNR_THRESHOLD) / BLS_SNR_THRESHOLD * 0.4
  else if snr < BLS_SNR_THRESHOLD * 5 then
    0.7 + (snr - BLS_SNR_THRESHOLD * 2) / (BLS_SNR_THRESHOLD * 3) * 0.25
  else min 1.0 (0.95 + (snr - BLS_SNR_THRESHOLD * 5) / 100 * 0.05)

/-- Embedding of `CandidateQualityAnalyzer._score_period`. -/
def score_period (period : ℚ) : ℚ :=
  if period ≤ 0 then 0
  else if period < 0.3 then 0.3
  else if 0.3 ≤ period ∧ period ≤ 50 then
    (if 0.5 ≤ period ∧ period ≤ 20 then 1.0 else 0.8)
  else if period > 50 then max 0.3 (1.0 - (period - 50) / 100)
  else 0.5

/-- Embedding of `CandidateQualityAnalyzer._score_depth` (argument is
the depth percentage). -/
def score_depth (depth_percent : ℚ) : ℚ :=
  if depth_percent ≤ 0 then 0
  else if depth_percent < 0.01 then 0.2
  else if 0.01 ≤ depth_percent ∧ depth_percent ≤ 5 then
    (if 0.05 ≤ depth_percent ∧ depth_percent ≤ 1.0 then 1.0 else 0.8)
  else if depth_percent > 5 then max 0.2 (1.0 - (depth_percent - 5) / 10)
  else 0.5

/-- Embedding of `CandidateQualityAnalyzer._get_quality_label`. -/
def get_quality_label (score : ℤ) : String :=
  if score ≥ 75 then "EXCELLENT"
  else if score ≥ 60 then "GOOD"
  else if score ≥ 40 then "FAIR"
  else if score ≥ 20 then "POOR"
  else "VERY_POOR"

/-- Result of `analyze_candidate` (the fields the spec's claims are
about; recommendation text and the report-file bookkeeping are
omitted). -/
structure QualityResult where
  score : ℤ
  quality : String
  snr_score : ℚ
  period_score : ℚ
  depth_score : ℚ
  vetting_passed : Bool
  deriving DecidableEq

/-- Embedding of `CandidateQualityAnalyzer.analyze_candidate`: the raw
metrics `snr`, `period`, `depth` and the stored `vetting_passed` flag
are taken out of the candidate record; `base_score` uses Python
`int(...)` truncation; a failed vetting caps the score at 60, and at
50 when the uncapped base score exceeded 80. -/
def analyze_candidate (snr period depth : ℚ) (vetting_passed : Bool) : QualityResult :=
  let depth_percent := |1.0 - depth| * 100
  let snr_score := score_snr snr
  let period_score := score_period period
  let depth_score := score_depth depth_percent
  let base_score := pyInt (snr_score * 60 + depth_score * 25 + period_score * 15)
  let overall_score :=
    if vetting_passed = false then
      let capped := min base_score 60
      if base_score > 80 then min capped 50 else capped
    else base_score
  { score := overall_score
    quality := get_quality_label overall_score
    snr_score := snr_score
    period_score := period_score
    depth_score := depth_score
    vetting_passed := vetting_passed }

/-- Rounding to the nearest integer (half away from zero upward), used
by the spec's reference scoring formula. -/
def specRound (x : ℚ) : ℤ := ⌊x + 1 / 2⌋

/-- Reference definition taken from the spec's words, for comparison
with the code: "Score (0–100) = round(60·snrScore + 25·depthScore +
15·periodScore)", capped at 60 on vetting failure and further at 50
when the uncapped score exceeded 80.  The sub-scores themselves are
the program's (the spec leaves their breakpoints as tunable policy). -/
def specRoundScore (snr period depth : ℚ) (vetting_passed : Bool) : ℤ :=
  let base := specRound (60 * score_snr snr + 25 * score_depth (|1.0 - depth| * 100)
    + 15 * score_period period)
  if vetting_passed then base
  else if base > 80 then 50 else min base 60

/-- Reference definition amended to match the code: the combination is
truncated (floor, the weighted sum being non-negative) rather than
rounded; the vetting caps are as the spec states them. -/
def specTruncScore (snr period depth : ℚ) (vetting_passed : Bool) : ℤ :=
  let base := ⌊60 * score_snr snr + 25 * score_depth (|1.0 - depth| * 100)
    + 15 * score_period period⌋
  if vetting_passed then base
  else if base > 80 then 50 else min base 60

/-! ## Lemmas about the sub-scores -/

lemma score_snr_nonneg (snr : ℚ) : 0 ≤ score_snr snr := by
  unfold score_snr BLS_SNR_THRESHOLD
  split_ifs with h1 h2 h3 h4 <;> try linarith
  exact le_min (by norm_num) (by linarith)

lemma score_snr_le_one (snr : ℚ) : score_snr snr ≤ 1 := by
  unfold score_snr BLS_SNR_THRESHOLD
  split_ifs with h1 h2 h3 h4 <;> try linarith
  exact le_trans (min_le_left _ _) (by norm_num)

lemma score_period_nonneg (p : ℚ) : 0 ≤ score_period p := by
  unfold score_period
  split_ifs with h1 h2 h3 h4 h5 <;> try linarith
  exact le_trans (by norm_num) (le_max_left _ _)

lemma score_period_le_one (p : ℚ) : score_period p ≤ 1 := by
  unfold score_period
  split_ifs with h1 h2 h3 h4 h5 <;> try linarith
  exact max_le (by norm_num) (by linarith)

lemma score_depth_nonneg (d : ℚ) : 0 ≤ score_depth d := by
  unfold score_depth
  split_ifs with h1 h2 h3 h4 h5 <;> try linarith
  exact le_trans (by norm_num) (le_max_left _ _)

lemma score_depth_le_one (d : ℚ) : score_depth d ≤ 1 := by
  unfold score_depth
  split_ifs with h1 h2 h3 h4 h5 <;> try linarith
  exact max_le (by norm_num) (by linarith)

lemma score_snr_mono {a b : ℚ} (h : a ≤ b) : score_snr a ≤ score_snr b := by
  unfold score_snr BLS_SNR_THRESHOLD
  split_ifs <;> try linarith
  all_goals try exact le_min (by linarith) (by linarith)
  all_goals exact le_min (min_le_left _ _) (le_trans (min_le_right _ _) (by linarith))

lemma pyInt_eq_floor {x : ℚ} (h : 0 ≤ x) : pyInt x = ⌊x⌋ := if_pos h

/-! ## Claim C1 -/

/-- Claim C1, counterexample to the claim as stated: the code's
`analyze_candidate` truncates the weighted sum with Python `int(...)`,
while the spec's reference formula rounds it.  At snr = 7.75,
period = 1, depth = 0.999 (weighted sum 52.6) with vetting passed, the
code returns 52 but the rounded reference gives 53. -/
theorem C1_round_counterexample :
    (analyze_candidate (31/4) 1 (999/1000) true).score = 52
    ∧ specRoundScore (31/4) 1 (999/1000) true = 53
    ∧ (analyze_candidate (31/4) 1 (999/1000) true).score
        ≠ specRoundScore (31/4) 1 (999/1000) true := by
  refine ⟨?_, ?_, ?_⟩ <;>
    norm_num [analyze_candidate, specRoundScore, specRound, score_snr, score_period,
      score_depth, pyInt, BLS_SNR_THRESHOLD, abs_of_nonneg]

/-- Claim C1 (amended): for every candidate record, `analyze_candidate`
returns a final score equal to the reference definition with the
weighted sum truncated (floor) instead of rounded; when vetting failed
the score is capped at 60, and further capped at 50 whenever the
uncapped base score exceeded 80 (both caps are part of
`specTruncScore`); in all cases the result lies in 0..100, and
`vetting_passed = false` implies final score ≤ 60. -/
theorem C1_score_trunc_spec (snr period depth : ℚ) (vp : Bool) :
    (analyze_candidate snr period depth vp).score = specTruncScore snr period depth vp
    ∧ 0 ≤ (analyze_candidate snr period depth vp).score
    ∧ (analyze_candidate snr period depth vp).score ≤ 100
    ∧ (vp = false → (analyze_candidate snr period depth vp).score ≤ 60) := by
  have hs0 := score_snr_nonneg snr
  have hs1 := score_snr_le_one snr
  have hd0 := score_depth_nonneg (|1.0 - depth| * 100)
  have hd1 := score_depth_le_one (|1.0 - depth| * 100)
  have hp0 := score_period_nonneg period
  have hp1 := score_period_le_one period
  simp only [analyze_candidate, specTruncScore]
  have hsum : score_snr snr * 60 + score_depth (|1.0 - depth| * 100) * 25
      + score_period period * 15
      = 60 * score_snr snr + 25 * score_depth (|1.0 - depth| * 100)
        + 15 * score_period period := by ring
  rw [hsum]
  set x := 60 * score_snr snr + 25 * score_depth (|1.0 - depth| * 100)
    + 15 * score_period period with hx
  have hx0 : (0:ℚ) ≤ x := by rw [hx]; linarith
  have hx100 : x ≤ 100 := by rw [hx]; linarith
  rw [pyInt_eq_floor hx0]
  have hb0 : (0:ℤ) ≤ ⌊x⌋ := Int.floor_nonneg.mpr hx0
  have hb100 : ⌊x⌋ ≤ 100 := by
    have := Int.floor_le_floor hx100
    simpa using this
  rcases vp <;> simp <;> omega

/-- Claim C1, witness: the amended theorem applied at a concrete
vetting-failed record shows the 60 cap concretely. -/
theorem C1_score_trunc_spec_witness :
    (analyze_candidate 19 1 (999/1000) false).score ≤ 60 :=
  (C1_score_trunc_spec 19 1 (999/1000) false).2.2.2 rfl

/-! ## Claim C6 -/

/-- Claim C6, counterexample to the claim as stated: for records with
`vetting_passed = false` the final score is not monotone in the
strength statistic.  With period = 1 and depth = 0.999 fixed, snr = 19
gives base score 79 (capped to 60), while snr = 20 gives base score 82
which, being above 80, is capped to 50 — the score drops as snr
grows. -/
theorem C6_vetting_failed_not_monotone :
    ((19:ℚ) ≤ 20)
    ∧ (analyze_candidate 19 1 (999/1000) false).score = 60
    ∧ (analyze_candidate 20 1 (999/1000) false).score = 50 := by
  refine ⟨by norm_num, ?_, ?_⟩ <;>
    norm_num [analyze_candidate, score_snr, score_period, score_depth, pyInt,
      BLS_SNR_THRESHOLD, abs_of_nonneg]

/-- Claim C6 (amended): for records with `vetting_passed = true` the
final candidate score is monotone non-decreasing in the strength
statistic (snr) when depth and period are held fixed (globally, hence
in particular within every sub-score band); for vetting-failed records
the cap interplay at base score 80 breaks monotonicity. -/
theorem C6_score_mono_in_snr (snr1 snr2 period depth : ℚ) (h : snr1 ≤ snr2) :
    (analyze_candidate snr1 period depth true).score
      ≤ (analyze_candidate snr2 period depth true).score := by
  have hmono := score_snr_mono h
  have hd0 := score_depth_nonneg (|1.0 - depth| * 100)
  have hp0 := score_period_nonneg period
  have hs0 := score_snr_nonneg snr1
  simp only [analyze_candidate]
  rw [pyInt_eq_floor (by linarith), pyInt_eq_floor (by nlinarith)]
  simp only [reduceCtorEq, if_false]
  exact Int.floor_le_floor (by linarith)

/-- Claim C6, witness: monotonicity applied at snr 19 ≤ 20 with period
1 and depth 0.999, vetting passed. -/
theorem C6_score_mono_in_snr_witness :
    (analyze_candidate 19 1 (999/1000) true).score
      ≤ (analyze_candidate 20 1 (999/1000) true).score :=
  C6_score_mono_in_snr 19 20 1 (999/1000) (by norm_num)

/-! ## Candidate store (`ksas/candidate_db.py`)

A Python dict keyed by TIC id is modelled as an association list with
unique keys in insertion order; the persisted JSON file as an explicit
inductive file state.  `lookupKey` models `tic_id in self.candidates`
plus indexing; `setKey` models in-place update of one key's record. -/

def lookupKey {β : Type} (l : List (String × β)) (k : String) : Option β :=
  match l with
  | [] => none
  | (a, b) :: t => if a = k then some b else lookupKey t k

def setKey {β : Type} (l : List (String × β)) (k : String) (f : β → β) :
    List (String × β) :=
  match l with
  | [] => []
  | (a, b) :: t => if a = k then (a, f b) :: setKey t k f else (a, b) :: setKey t k f

/-- Persisted candidate record, as built by
`CandidateDatabase.add_candidate` (`is_discovered`: `none` = unknown,
`some true` = already known, `some false` = potentially new). -/
structure CandidateRecord where
  tic_id : String
  period : ℚ
  depth : ℚ
  snr : ℚ
  bls_power : Option ℚ
  tls_sde : Option ℚ
  vetting_passed : Bool
  detection_time : String
  reviewed : Bool
  is_discovered : Option Bool
  notes : String
  review_time : Option String
  t0 : Option ℚ
  duration : Option ℚ
  deriving DecidableEq

/-- Content of the persisted candidate store file: absent, unreadable
or corrupt, or holding a written collection. -/
inductive StoreFile where
  | absent
  | corrupt
  | written (candidates : List (String × CandidateRecord))
  deriving DecidableEq

/-- In-memory collection plus the persisted file it mirrors. -/
structure DBState where
  candidates : List (String × CandidateRecord)
  file : StoreFile
  deriving DecidableEq

namespace CandidateDatabase

/-- Embedding of `CandidateDatabase.load`: a missing file starts
fresh; an unreadable or corrupt file merely logs a warning and ALSO
starts fresh (`self.candidates = {}`), silently dropping the stored
data. -/
def load (f : StoreFile) : List (String × CandidateRecord) :=
  match f with
  | .absent => []
  | .corrupt => []
  | .written m => m

/-- Constructor `CandidateDatabase.__init__`: load from the file. -/
def dbInit (f : StoreFile) : DBState := { candidates := load f, file := f }

/-- Embedding of `CandidateDatabase.save`: write the current
collection over the file. -/
def save (st : DBState) : DBState := { st with file := .written st.candidates }

/-- Embedding of `CandidateDatabase.add_candidate`: upsert keyed by
`tic_id`.  A fresh key appends a full record with `reviewed := false`
and `is_discovered := none`; an existing key has only the detection
fields overwritten.  `snr` is the maximum of the BLS power and TLS SDE
with `None` read as 0; a missing `detection_time` defaults to `now`;
`save` runs at the end. -/
def add_candidate (st : DBState) (tic_id : String) (period depth : ℚ)
    (bls_power tls_sde : Option ℚ) (vetting_passed : Bool)
    (detection_time : Option String) (t0 duration : Option ℚ) (now : String) : DBState :=
  let dt := detection_time.getD now
  let snr := max (bls_power.getD 0) (tls_sde.getD 0)
  let candidates :=
    match lookupKey st.candidates tic_id with
    | none =>
        st.candidates ++ [(tic_id,
          { tic_id := tic_id, period := period, depth := depth, snr := snr,
            bls_power := bls_power, tls_sde := tls_sde,
            vetting_passed := vetting_passed, detection_time := dt,
            reviewed := false, is_discovered := none, notes := "",
            review_time := none, t0 := t0, duration := duration })]
    | some _ =>
        setKey st.candidates tic_id (fun r =>
          { r with
              period := period, depth := depth, snr := snr,
              bls_power := bls_power, tls_sde := tls_sde,
              vetting_passed := vetting_passed, detection_time := dt,
              t0 := t0, duration := duration })
  save { st with candidates := candidates }

/-- Embedding of `CandidateDatabase.update_candidate`: update fields
of an existing candidate (the dict of field updates is modelled as a
record transformer); a missing `tic_id` does nothing. -/
def update_candidate (st : DBState) (tic_id : String)
    (updates : CandidateRecord → CandidateRecord) : DBState :=
  if (lookupKey st.candidates tic_id).isSome then
    save { st with candidates := setKey st.candidates tic_id updates }
  else st

/-- Embedding of `CandidateDatabase.mark_reviewed`: set the review
fields of an existing candidate; a missing `tic_id` does nothing. -/
def mark_reviewed (st : DBState) (tic_id : String) (is_discovered : Bool)
    (notes : String) (now : String) : DBState :=
  if (lookupKey st.candidates tic_id).isSome then
    save { st with candidates := setKey st.candidates tic_id (fun r =>
      { r with
          reviewed := true, is_discovered := some is_discovered,
          notes := notes, review_time := some now }) }
  else st

end CandidateDatabase

/-! ## Lemmas about the association-list operations -/

lemma lookupKey_setKey_self {β : Type} (l : List (String × β)) (k : String) (f : β → β) :
    lookupKey (setKey l k f) k = (lookupKey l k).map f := by
  induction l with
  | nil => rfl
  | cons p t ih =>
    obtain ⟨a, b⟩ := p
    simp only [setKey]
    split_ifs with h1
    · simp [lookupKey, h1]
    · simp [lookupKey, h1, ih]

lemma lookupKey_append_single {β : Type} {l : List (String × β)} {k : String}
    (h : lookupKey l k = none) (r : β) :
    lookupKey (l ++ [(k, r)]) k = some r := by
  induction l with
  | nil => simp [lookupKey]
  | cons p t ih =>
    obtain ⟨a, b⟩ := p
    simp only [lookupKey] at h ⊢
    split_ifs at h ⊢ with h1
    exact ih h

lemma mem_setKey {β : Type} {l : List (String × β)} {k : String} {f : β → β}
    {p : String × β} (h : p ∈ setKey l k f) : ∃ q ∈ l, p.1 = q.1 := by
  induction l with
  | nil => simp [setKey] at h
  | cons q t ih =>
    obtain ⟨a, b⟩ := q
    simp only [setKey] at h
    split_ifs at h with h1 <;> rcases List.mem_cons.mp h with h2 | h2
    · exact ⟨(a, b), List.mem_cons_self _ _, by simp [h2]⟩
    · obtain ⟨q, hq, hq2⟩ := ih h2
      exact ⟨q, List.mem_cons_of_mem _ hq, hq2⟩
    · exact ⟨(a, b), List.mem_cons_self _ _, by simp [h2]⟩
    · obtain ⟨q, hq, hq2⟩ := ih h2
      exact ⟨q, List.mem_cons_of_mem _ hq, hq2⟩

/-! ## Claim C2 -/

/-- Claim C2: the spec requires that a failed Candidate Store load
fail closed and demand operator action; the code
(`CandidateDatabase.load`) instead logs a warning, continues with an
empty collection, and a later `save` overwrites the file with that
empty collection.  This theorem evaluates the embedded code at the
failing input (a corrupt store file): the load comes back empty, and a
subsequent save writes the empty collection over the file. -/
theorem C2_store_load_fails_open :
    CandidateDatabase.load .corrupt = []
    ∧ (CandidateDatabase.dbInit .corrupt).candidates = []
    ∧ (CandidateDatabase.save (CandidateDatabase.dbInit .corrupt)).file
        = .written [] :=
  ⟨rfl, rfl, rfl⟩

/-! ## Claim C4 -/

/-- Claim C4: upserting a fresh TIC id initializes the review fields
(`reviewed = false`, `is_discovered = none`, empty notes, no review
timestamp) and sets all detection fields from the call; upserting an
existing TIC id overwrites the detection fields (period, depth, snr,
BLS power, TLS SDE, vetting flag, detection timestamp, epoch,
duration) with the second call's values while leaving `reviewed`,
`is_discovered`, `notes` and `review_time` exactly as they were before
the call. -/
theorem C4_upsert_preserves_review (st : DBState) (tic : String) (p d : ℚ)
    (bp ts : Option ℚ) (vp : Bool) (dt : Option String) (t0 dur : Option ℚ) (now : String) :
    (lookupKey st.candidates tic = none →
      ∃ r, lookupKey
          (CandidateDatabase.add_candidate st tic p d bp ts vp dt t0 dur now).candidates tic
          = some r
        ∧ r.reviewed = false ∧ r.is_discovered = none ∧ r.notes = "" ∧ r.review_time = none
        ∧ r.period = p ∧ r.depth = d ∧ r.snr = max (bp.getD 0) (ts.getD 0)
        ∧ r.bls_power = bp ∧ r.tls_sde = ts ∧ r.vetting_passed = vp
        ∧ r.detection_time = dt.getD now ∧ r.t0 = t0 ∧ r.duration = dur)
    ∧ (∀ r0, lookupKey st.candidates tic = some r0 →
      ∃ r, lookupKey
          (CandidateDatabase.add_candidate st tic p d bp ts vp dt t0 dur now).candidates tic
          = some r
        ∧ r.period = p ∧ r.depth = d ∧ r.snr = max (bp.getD 0) (ts.getD 0)
        ∧ r.bls_power = bp ∧ r.tls_sde = ts ∧ r.vetting_passed = vp
        ∧ r.detection_time = dt.getD now ∧ r.t0 = t0 ∧ r.duration = dur
        ∧ r.reviewed = r0.reviewed ∧ r.is_discovered = r0.is_discovered
        ∧ r.notes = r0.notes ∧ r.review_time = r0.review_time) := by
  constructor
  · intro h
    simp only [CandidateDatabase.add_candidate, CandidateDatabase.save, h]
    exact ⟨_, lookupKey_append_single h _,
      rfl, rfl, rfl, rfl, rfl, rfl, rfl, rfl, rfl, rfl, rfl, rfl, rfl⟩
  · intro r0 h0
    have hl : lookupKey
        (CandidateDatabase.add_candidate st tic p d bp ts vp dt t0 dur now).candidates tic
        = some { r0 with
                   period := p, depth := d, snr := max (bp.getD 0) (ts.getD 0),
                   bls_power := bp, tls_sde := ts, vetting_passed := vp,
                   detection_time := dt.getD now, t0 := t0, duration := dur } := by
      simp only [CandidateDatabase.add_candidate, CandidateDatabase.save, h0]
      rw [lookupKey_setKey_self, h0]
      rfl
    exact ⟨_, hl, rfl, rfl, rfl, rfl, rfl, rfl, rfl, rfl, rfl, rfl, rfl, rfl, rfl⟩

/-- Store produced by one concrete upsert into an empty store, used to
witness the upsert claims on explicit data. -/
def sampleStore : DBState :=
  CandidateDatabase.add_candidate (CandidateDatabase.dbInit .absent)
    "TIC 1" 5 1 (some 12) none true none (some 1) (some 2) "t1"

/-- The record `sampleStore` holds under key "TIC 1". -/
def sampleRec : CandidateRecord :=
  { tic_id := "TIC 1", period := 5, depth := 1, snr := 12, bls_power := some 12,
    tls_sde := none, vetting_passed := true, detection_time := "t1", reviewed := false,
    is_discovered := none, notes := "", review_time := none, t0 := some 1,
    duration := some 2 }

/-- Claim C4, witness: the upsert theorem applied to a concrete empty
store (fresh-key part) and to the store holding `sampleRec`
(existing-key part). -/
theorem C4_upsert_preserves_review_witness :
    (∃ r, lookupKey sampleStore.candidates "TIC 1" = some r
      ∧ r.reviewed = false ∧ r.is_discovered = none)
    ∧ (∃ r, lookupKey
        (CandidateDatabase.add_candidate sampleStore
          "TIC 1" 7 2 none (some 9) false (some "t2") none none "t3").candidates "TIC 1"
        = some r
      ∧ r.period = 7 ∧ r.reviewed = false ∧ r.notes = "") := by
  constructor
  · obtain ⟨r, hr, h1, h2, _⟩ :=
      (C4_upsert_preserves_review (CandidateDatabase.dbInit .absent)
        "TIC 1" 5 1 (some 12) none true none (some 1) (some 2) "t1").1 rfl
    exact ⟨r, hr, h1, h2⟩
  · obtain ⟨r, hr, hp, _, _, _, _, _, _, _, _, hrev, _, hnotes, _⟩ :=
      (C4_upsert_preserves_review sampleStore
        "TIC 1" 7 2 none (some 9) false (some "t2") none none "t3").2 sampleRec rfl
    exact ⟨r, hr, hp, by rw [hrev]; rfl, by rw [hnotes]; rfl⟩

/-! ## Claim C10 -/

/-- Claim C10: for a TIC id not present in the store, both
`update_candidate` and `mark_reviewed` are silent no-ops: no error is
raised (the embedded operations are total), no record is created, and
the state — in-memory collection and persisted file alike — is left
completely unchanged. -/
theorem C10_missing_tic_noop (st : DBState) (tic : String)
    (updates : CandidateRecord → CandidateRecord) (d : Bool) (n now : String)
    (h : lookupKey st.candidates tic = none) :
    CandidateDatabase.update_candidate st tic updates = st
    ∧ CandidateDatabase.mark_reviewed st tic d n now = st := by
  constructor <;>
    simp [CandidateDatabase.update_candidate, CandidateDatabase.mark_reviewed, h]

/-- Claim C10, witness: both no-ops on a concrete store that does not
contain the key "TIC 9". -/
theorem C10_missing_tic_noop_witness :
    CandidateDatabase.update_candidate sampleStore "TIC 9" id = sampleStore
    ∧ CandidateDatabase.mark_reviewed sampleStore "TIC 9" false "" "t4" = sampleStore :=
  C10_missing_tic_noop sampleStore "TIC 9" id false "" "t4" rfl

/-! ## Dedup tracker (`ksas/tracking.py`)

The in-memory Python set is modelled as a duplicate-free list (add is
guarded by membership); the primary file `analyzed_stars.json` and the
`.corrupt` backup as explicit file states. -/

/-- Content of the persisted tracker file. -/
inductive TrackerFile where
  | absent
  | corrupt
  | written (ids : List String)
  deriving DecidableEq

/-- Tracker state: in-memory set, primary file, optional backup file. -/
structure TrackerState where
  analyzed : List String
  file : TrackerFile
  backup : Option TrackerFile
  deriving DecidableEq

namespace StarTracker

/-- Embedding of `StarTracker.load`: a missing file starts fresh; a
corrupt file is COPIED (`shutil.copy`) to the `.corrupt` backup — the
primary file keeps the corrupt content under its original name — and
the tracker starts from an empty set; a readable file loads its ids. -/
def load (file : TrackerFile) (backup : Option TrackerFile) : TrackerState :=
  match file with
  | .absent => { analyzed := [], file := .absent, backup := backup }
  | .corrupt => { analyzed := [], file := .corrupt, backup := some .corrupt }
  | .written ids => { analyzed := ids, file := .written ids, backup := backup }

/-- Embedding of `StarTracker.save`: atomic write of the current set
over the primary file. -/
def save (st : TrackerState) : TrackerState := { st with file := .written st.analyzed }

/-- Embedding of `StarTracker.is_analyzed`. -/
def is_analyzed (st : TrackerState) (target_id : String) : Bool :=
  decide (target_id ∈ st.analyzed)

/-- Embedding of `StarTracker.mark_analyzed`: add to the set (a set
add is a no-op on a present element) and save every 10th element. -/
def mark_analyzed (st : TrackerState) (target_id : String) : TrackerState :=
  let analyzed := if target_id ∈ st.analyzed then st.analyzed else target_id :: st.analyzed
  let st1 := { st with analyzed := analyzed }
  if analyzed.length % 10 = 0 then save st1 else st1

/-- Embedding of `StarTracker.get_count`. -/
def get_count (st : TrackerState) : ℕ := st.analyzed.length

/-- A whole sequence of `mark_analyzed` calls. -/
def applyMarks (st : TrackerState) (ids : List String) : TrackerState :=
  ids.foldl mark_analyzed st

end StarTracker

lemma mark_analyzed_analyzed (st : TrackerState) (id' : String) :
    (StarTracker.mark_analyzed st id').analyzed
      = if id' ∈ st.analyzed then st.analyzed else id' :: st.analyzed := by
  unfold StarTracker.mark_analyzed StarTracker.save
  rw [apply_ite TrackerState.analyzed, ite_self]

lemma mark_analyzed_mem {st : TrackerState} {x : String} (id' : String)
    (h : x ∈ st.analyzed) : x ∈ (StarTracker.mark_analyzed st id').analyzed := by
  rw [mark_analyzed_analyzed]
  split_ifs <;> simp [h]

lemma mark_analyzed_self_mem (st : TrackerState) (id' : String) :
    id' ∈ (StarTracker.mark_analyzed st id').analyzed := by
  rw [mark_analyzed_analyzed]
  split_ifs with h1 <;> simp [h1]

lemma mark_analyzed_count_le (st : TrackerState) (id' : String) :
    st.analyzed.length ≤ (StarTracker.mark_analyzed st id').analyzed.length := by
  rw [mark_analyzed_analyzed]
  split_ifs <;> simp

lemma applyMarks_mem {st : TrackerState} {x : String} (ids : List String)
    (h : x ∈ st.analyzed) : x ∈ (StarTracker.applyMarks st ids).analyzed := by
  induction ids generalizing st with
  | nil => exact h
  | cons i t ih => exact ih (mark_analyzed_mem i h)

lemma applyMarks_count_le (st : TrackerState) (ids : List String) :
    st.analyzed.length ≤ (StarTracker.applyMarks st ids).analyzed.length := by
  induction ids generalizing st with
  | nil => exact le_refl _
  | cons i t ih => exact le_trans (mark_analyzed_count_le st i) (ih _)

/-! ## Claim C5 -/

/-- Claim C5: marking makes `is_analyzed` true for the marked id; once
`is_analyzed` is true for an id it stays true across any further
sequence of marks; marking an already-present id leaves the tracked
set unchanged (idempotent no-op on the set); and `get_count` is
non-decreasing across any sequence of marks. -/
theorem C5_tracker_mark_invariants (st : TrackerState) (id' : String) (ids : List String) :
    (StarTracker.is_analyzed (StarTracker.mark_analyzed st id') id' = true)
    ∧ (StarTracker.is_analyzed st id' = true →
        StarTracker.is_analyzed (StarTracker.applyMarks st ids) id' = true)
    ∧ (StarTracker.is_analyzed st id' = true →
        (StarTracker.mark_analyzed st id').analyzed = st.analyzed)
    ∧ (StarTracker.get_count st ≤ StarTracker.get_count (StarTracker.applyMarks st ids)) := by
  refine ⟨?_, ?_, ?_, ?_⟩
  · simpa [StarTracker.is_analyzed] using mark_analyzed_self_mem st id'
  · intro h
    simp only [StarTracker.is_analyzed, decide_eq_true_eq] at h ⊢
    exact applyMarks_mem ids h
  · intro h
    simp only [StarTracker.is_analyzed, decide_eq_true_eq] at h
    rw [mark_analyzed_analyzed, if_pos h]
  · exact applyMarks_count_le st ids

/-- Claim C5, witness: the invariants applied to the concrete tracker
that marked "TIC a" starting from an absent file, with a further mark
sequence containing a repeat. -/
theorem C5_tracker_mark_invariants_witness :
    (StarTracker.is_analyzed
      (StarTracker.mark_analyzed
        (StarTracker.mark_analyzed (StarTracker.load .absent none) "TIC a") "TIC a")
      "TIC a" = true)
    ∧ (StarTracker.is_analyzed
        (StarTracker.applyMarks
          (StarTracker.mark_analyzed (StarTracker.load .absent none) "TIC a")
          ["TIC b", "TIC a"]) "TIC a" = true)
    ∧ ((StarTracker.mark_analyzed
        (StarTracker.mark_analyzed (StarTracker.load .absent none) "TIC a")
        "TIC a").analyzed
      = (StarTracker.mark_analyzed (StarTracker.load .absent none) "TIC a").analyzed)
    ∧ (StarTracker.get_count
        (StarTracker.mark_analyzed (StarTracker.load .absent none) "TIC a")
      ≤ StarTracker.get_count
        (StarTracker.applyMarks
          (StarTracker.mark_analyzed (StarTracker.load .absent none) "TIC a")
          ["TIC b", "TIC a"])) := by
  obtain ⟨h1, h2, h3, h4⟩ :=
    C5_tracker_mark_invariants
      (StarTracker.mark_analyzed (StarTracker.load .absent none) "TIC a")
      "TIC a" ["TIC b", "TIC a"]
  exact ⟨h1, h2 (by decide), h3 (by decide), h4⟩

/-! ## Claim C7 -/

/-- Claim C7, counterexample to the claim as stated: on loading a
corrupt primary file the code backs it up with `shutil.copy`, not a
rename — so after the recovery path the primary file STILL holds the
corrupt content under its original name (and the next save overwrites
it in place). -/
theorem C7_primary_not_renamed :
    (StarTracker.load .corrupt none).file = TrackerFile.corrupt
    ∧ (StarTracker.save (StarTracker.load .corrupt none)).file = .written [] :=
  ⟨rfl, rfl⟩

/-- Claim C7 (amended): on loading a corrupt primary file the corrupt
content is copied aside to a backup file (the primary keeps it under
its original name until the next save overwrites it), and the tracker
starts from an empty set with `get_count` = 0. -/
theorem C7_corrupt_backup_and_reset :
    (StarTracker.load .corrupt none).backup = some TrackerFile.corrupt
    ∧ (StarTracker.load .corrupt none).analyzed = []
    ∧ StarTracker.get_count (StarTracker.load .corrupt none) = 0 :=
  ⟨rfl, rfl, rfl⟩

/-! ## Vetting engine (`ksas/vetting.py`)

The numerics inside each test (folding, medians, standard deviations
over the light curve) are external array computations; each test's
internal computation is therefore modelled by its outcome, either a
(pass, metric) pair or a raised exception (`Except.error`).  What the
source fixes — the per-test try/except fallback and the aggregation in
`vet_candidate` — is embedded exactly. -/

/-- The try/except wrapper each of the four tests ends with: a
computation that throws is turned into `(True, 0.0)` — "if test
fails, don't penalize" — after logging a warning. -/
def vetTestRun (comp : Except Unit (Bool × ℚ)) : Bool × ℚ :=
  match comp with
  | .ok r => r
  | .error _ => (true, 0)

/-- Failure reasons appended by `vet_candidate`, one constructor per
test; each carries the diagnostic metric the Python code formats into
its message string. -/
inductive VetReason where
  | oddEvenMismatch (metric : ℚ)
  | vShapedTransit (metric : ℚ)
  | secondaryTransit (metric : ℚ)
  | unusualDepthDurationRatio (metric : ℚ)
  deriving DecidableEq

/-- Embedding of the `VettingResult` class. -/
structure VettingResult where
  passed : Bool
  reasons : List VetReason
  metrics : List (String × ℚ)
  deriving DecidableEq

/-- Embedding of `CandidateVetting.vet_candidate`, parameterized by
the outcomes of the four tests' internal computations: every failing
test appends its reason, all four metrics are recorded, and `passed`
is `len(reasons) == 0`. -/
def vet_candidate (oddEven shape secondary ratio : Except Unit (Bool × ℚ)) : VettingResult :=
  let oe := vetTestRun oddEven
  let sh := vetTestRun shape
  let se := vetTestRun secondary
  let ra := vetTestRun ratio
  let reasons :=
    (if oe.1 then [] else [VetReason.oddEvenMismatch oe.2])
    ++ (if sh.1 then [] else [VetReason.vShapedTransit sh.2])
    ++ (if se.1 then [] else [VetReason.secondaryTransit se.2])
    ++ (if ra.1 then [] else [VetReason.unusualDepthDurationRatio ra.2])
  { passed := decide (reasons.length = 0)
    reasons := reasons
    metrics := [("odd_even_diff", oe.2), ("shape_metric", sh.2),
                ("secondary_depth", se.2), ("depth_duration_ratio", ra.2)] }

/-! ## Claim C3 -/

/-- Claim C3: `vet_candidate` passes exactly when all four tests pass;
the reasons list carries one entry per failing test (all failures
reported, not only the first); and a test whose internal computation
throws comes back as a pass with metric 0, so it never contributes a
failure. -/
theorem C3_vet_aggregation (oddEven shape secondary ratio : Except Unit (Bool × ℚ)) :
    ((vet_candidate oddEven shape secondary ratio).passed = true ↔
      ((vetTestRun oddEven).1 = true ∧ (vetTestRun shape).1 = true
        ∧ (vetTestRun secondary).1 = true ∧ (vetTestRun ratio).1 = true))
    ∧ ((vet_candidate oddEven shape secondary ratio).reasons.length
        = (if (vetTestRun oddEven).1 then 0 else 1)
          + (if (vetTestRun shape).1 then 0 else 1)
          + (if (vetTestRun secondary).1 then 0 else 1)
          + (if (vetTestRun ratio).1 then 0 else 1))
    ∧ (∀ e, vetTestRun (Except.error e) = (true, 0)) := by
  refine ⟨?_, ?_, fun e => rfl⟩ <;>
    cases h1 : (vetTestRun oddEven).1 <;> cases h2 : (vetTestRun shape).1 <;>
    cases h3 : (vetTestRun secondary).1 <;> cases h4 : (vetTestRun ratio).1 <;>
    simp [vet_candidate, h1, h2, h3, h4]

/-! ## Worker pool (`ksas/worker_pool.py`) and the orchestration loop

`submit_work` increments `submitted` and `in_progress`; the completion
callback `_on_complete` increments `completed` and decrements
`in_progress`.  The orchestration loop (`main.py`,
`parallel_analysis_loop`) submits only after observing
`pool.get_active_count() < num_workers`; completion callbacks may fire
at any point, so a run is an arbitrary interleaving of guarded submits
and completions. -/

/-- The pool's stats counters (`in_progress` as a signed integer, as in
Python). -/
structure PoolState where
  submitted : ℕ
  completed : ℕ
  in_progress : ℤ
  deriving DecidableEq

namespace WorkerPool

/-- Stats at pool construction: all counters zero. -/
def poolInit : PoolState := { submitted := 0, completed := 0, in_progress := 0 }

/-- Embedding of `WorkerPool.submit_work`'s counter updates. -/
def submit_work (st : PoolState) : PoolState :=
  { st with submitted := st.submitted + 1, in_progress := st.in_progress + 1 }

/-- Embedding of `WorkerPool._on_complete`'s counter updates. -/
def on_complete (st : PoolState) : PoolState :=
  { st with completed := st.completed + 1, in_progress := st.in_progress - 1 }

end WorkerPool

/-- An observable event of the loop/pool interaction. -/
inductive PoolEvent where
  | submit
  | complete
  deriving DecidableEq

/-- One step: the loop submits only after observing
`get_active_count() < num_workers` (otherwise it waits and the state
is unchanged); a completion callback may fire at any time. -/
def loopStep (num_workers : ℕ) (st : PoolState) : PoolEvent → PoolState
  | .submit =>
      if st.in_progress < (num_workers : ℤ) then WorkerPool.submit_work st else st
  | .complete => WorkerPool.on_complete st

/-- A run of the loop: any finite sequence of events from the initial
pool state. -/
def runPool (num_workers : ℕ) (events : List PoolEvent) : PoolState :=
  events.foldl (loopStep num_workers) WorkerPool.poolInit

lemma loopStep_in_progress_le (num_workers : ℕ) (st : PoolState) (e : PoolEvent)
    (h : st.in_progress ≤ (num_workers : ℤ)) :
    (loopStep num_workers st e).in_progress ≤ (num_workers : ℤ) := by
  cases e
  · simp only [loopStep]
    split_ifs with h1
    · show st.in_progress + 1 ≤ (num_workers : ℤ)
      omega
    · exact h
  · show st.in_progress - 1 ≤ (num_workers : ℤ)
    omega

/-! ## Claim C9 -/

/-- Claim C9: when every submit is guarded by the loop's
`get_active_count() < num_workers` check, the pool's `in_progress`
counter never exceeds the configured worker count at any observed
instant, for every finite sequence of submit and completion events. -/
theorem C9_in_progress_bounded (num_workers : ℕ) (events : List PoolEvent) :
    (runPool num_workers events).in_progress ≤ (num_workers : ℤ) := by
  suffices h : ∀ st : PoolState, st.in_progress ≤ (num_workers : ℤ) →
      (events.foldl (loopStep num_workers) st).in_progress ≤ (num_workers : ℤ) by
    exact h WorkerPool.poolInit (by simp [WorkerPool.poolInit])
  induction events with
  | nil => intro st h; exact h
  | cons e t ih =>
    intro st h
    exact ih _ (loopStep_in_progress_le num_workers st e h)

/-! ## Analysis pipeline (`main.py`, `analyze_single_target`)

The external oracles — downloader, processor, BLS and TLS detectors,
and the vetting verdict — are parameters of one run; the control flow
and the order of tracker/store writes are embedded from the source. -/

/-- Result of the fast (BLS) detector. -/
structure BlsResult where
  is_candidate : Bool
  period : ℚ
  t0 : ℚ
  duration : ℚ
  depth : ℚ
  power : ℚ
  deriving DecidableEq

/-- Result of the precise (TLS) detector. -/
structure TlsResult where
  period : ℚ
  t0 : ℚ
  duration : ℚ
  depth : ℚ
  sde : ℚ
  deriving DecidableEq

/-- Outcomes of the external calls during one pipeline run:
`download_ok`/`process_ok` say whether the downloader/processor
returned a usable series, `bls`/`tls` the detector results, and
`tls_significant`/`vet_passed` the judgments
`tls_analyzer.is_significant` and `vet_result.passed`. -/
structure RunEnv where
  download_ok : Bool
  process_ok : Bool
  bls : Option BlsResult
  tls : Option TlsResult
  tls_significant : Bool
  vet_passed : Bool
  now : String
  deriving DecidableEq

/-- Terminal statuses of `analyze_single_target` (the `error` status of
the catch-all except clause cannot arise in the total embedding). -/
inductive RunStatus where
  | already_analyzed
  | no_data
  | processing_failed
  | bls_failed
  | candidate_confirmed
  | candidate_rejected
  | analyzed_no_signal
  deriving DecidableEq

/-- Shared mutable state of the orchestration loop: dedup tracker and
candidate store. -/
structure SysState where
  tracker : TrackerState
  db : DBState
  deriving DecidableEq

/-- Embedding of `analyze_single_target`: check the tracker; download;
process; BLS; mark the tracker (also on the no-data and failure
exits); then, if a candidate is indicated, choose TLS parameters when
TLS ran, vet, and on a pass upsert the candidate store. -/
def analyze_single_target (env : RunEnv) (target : String) (st : SysState) :
    SysState × RunStatus :=
  if StarTracker.is_analyzed st.tracker target then (st, .already_analyzed)
  else if env.download_ok = false then
    ({ st with tracker := StarTracker.mark_analyzed st.tracker target }, .no_data)
  else if env.process_ok = false then
    ({ st with tracker := StarTracker.mark_analyzed st.tracker target }, .processing_failed)
  else
    match env.bls with
    | none =>
        ({ st with tracker := StarTracker.mark_analyzed st.tracker target }, .bls_failed)
    | some bls =>
        let tls_result := if bls.is_candidate then env.tls else none
        let st1 : SysState := { st with tracker := StarTracker.mark_analyzed st.tracker target }
        if bls.is_candidate || (tls_result.isSome && env.tls_significant) then
          let period := match tls_result with | some t => t.period | none => bls.period
          let t0 := match tls_result with | some t => t.t0 | none => bls.t0
          let duration := match tls_result with | some t => t.duration | none => bls.duration
          let depth := match tls_result with | some t => t.depth | none => bls.depth
          if env.vet_passed then
            ({ st1 with
                 db := CandidateDatabase.add_candidate st1.db target period depth
                   (some bls.power) (tls_result.map TlsResult.sde) true none
                   (some t0) (some duration) env.now },
             .candidate_confirmed)
          else (st1, .candidate_rejected)
        else (st1, .analyzed_no_signal)

/-- A sequence of pipeline runs driven by the orchestration loop. -/
def runPipeline (runs : List (RunEnv × String)) (st : SysState) : SysState :=
  runs.foldl (fun s r => (analyze_single_target r.1 r.2 s).1) st

/-- The spec's cross-store invariant: every TIC id with an entry in
the candidate store is present in the tracker's set. -/
def StoreTrackedInv (st : SysState) : Prop :=
  ∀ p ∈ st.db.candidates, StarTracker.is_analyzed st.tracker p.1 = true

lemma is_analyzed_mark {st : TrackerState} {y : String} (x : String)
    (h : StarTracker.is_analyzed st y = true) :
    StarTracker.is_analyzed (StarTracker.mark_analyzed st x) y = true := by
  simp only [StarTracker.is_analyzed, decide_eq_true_eq] at h ⊢
  exact mark_analyzed_mem x h

lemma is_analyzed_mark_self (st : TrackerState) (x : String) :
    StarTracker.is_analyzed (StarTracker.mark_analyzed st x) x = true := by
  simp only [StarTracker.is_analyzed, decide_eq_true_eq]
  exact mark_analyzed_self_mem st x

lemma add_candidate_keys {st : DBState} {tic : String} {per dep : ℚ}
    {bp ts : Option ℚ} {vp : Bool} {dt : Option String} {t0 dur : Option ℚ} {now : String}
    {p : String × CandidateRecord}
    (h : p ∈ (CandidateDatabase.add_candidate st tic per dep bp ts vp dt t0 dur now).candidates) :
    p.1 = tic ∨ ∃ q ∈ st.candidates, p.1 = q.1 := by
  rcases hl : lookupKey st.candidates tic with _ | r <;>
    simp only [CandidateDatabase.add_candidate, CandidateDatabase.save, hl] at h
  · rcases List.mem_append.mp h with h2 | h2
    · exact Or.inr ⟨p, h2, rfl⟩
    · simp only [List.mem_singleton] at h2
      exact Or.inl (by rw [h2])
  · exact Or.inr (mem_setKey h)

lemma lookupKey_mem {β : Type} {l : List (String × β)} {k : String} {r : β}
    (h : lookupKey l k = some r) : (k, r) ∈ l := by
  induction l with
  | nil => simp [lookupKey] at h
  | cons p t ih =>
    obtain ⟨a, b⟩ := p
    simp only [lookupKey] at h
    split_ifs at h with h1
    · obtain rfl := h1
      obtain rfl : b = r := by injection h
      exact List.mem_cons_self _ _
    · exact List.mem_cons_of_mem _ (ih h)

lemma analyze_single_target_inv {st : SysState} (env : RunEnv) (target : String)
    (h : StoreTrackedInv st) :
    StoreTrackedInv (analyze_single_target env target st).1 := by
  have hmark : StoreTrackedInv
      { tracker := StarTracker.mark_analyzed st.tracker target, db := st.db } :=
    fun p hp => is_analyzed_mark _ (h p hp)
  unfold analyze_single_target
  by_cases h1 : StarTracker.is_analyzed st.tracker target = true
  · rw [if_pos h1]
    exact h
  rw [if_neg h1]
  by_cases h2 : env.download_ok = false
  · rw [if_pos h2]
    exact hmark
  rw [if_neg h2]
  by_cases h3 : env.process_ok = false
  · rw [if_pos h3]
    exact hmark
  rw [if_neg h3]
  rcases hbls : env.bls with _ | bls <;> simp only [hbls]
  · exact hmark
  split_ifs
  all_goals try exact hmark
  all_goals
    intro p hp
    rcases add_candidate_keys hp with hk | ⟨q, hq, hk⟩
    · rw [hk]
      exact is_analyzed_mark_self st.tracker target
    · rw [hk]
      exact is_analyzed_mark _ (h q hq)

/-! ## Claim C8 -/

/-- Claim C8: in every state reachable by a sequence of pipeline runs
from a state satisfying the invariant, every TIC id that has an entry
in the candidate store is marked in the tracker's set — the pipeline
marks the target before the upsert within the same run, so a confirmed
candidate is always recorded as processed. -/
theorem C8_store_subset_tracker (runs : List (RunEnv × String)) (st : SysState)
    (h : StoreTrackedInv st) :
    ∀ k r, lookupKey (runPipeline runs st).db.candidates k = some r →
      StarTracker.is_analyzed (runPipeline runs st).tracker k = true := by
  suffices hinv : StoreTrackedInv (runPipeline runs st) by
    intro k r hk
    exact hinv (k, r) (lookupKey_mem hk)
  unfold runPipeline
  induction runs generalizing st with
  | nil => exact h
  | cons run t ih => exact ih _ (analyze_single_target_inv run.1 run.2 h)

/-- Claim C8, witness: one concrete confirmed-candidate run from empty
stores ends with "TIC 1" both stored and marked as analyzed. -/
theorem C8_store_subset_tracker_witness :
    StarTracker.is_analyzed
      (runPipeline
        [({ download_ok := true, process_ok := true,
            bls := some { is_candidate := true, period := 3, t0 := 1, duration := 1,
                          depth := 1, power := 12 },
            tls := none, tls_significant := false, vet_passed := true, now := "t" },
          "TIC 1")]
        { tracker := StarTracker.load .absent none,
          db := CandidateDatabase.dbInit .absent }).tracker "TIC 1" = true := by
  refine C8_store_subset_tracker _ _ ?_ "TIC 1"
    { tic_id := "TIC 1", period := 3, depth := 1, snr := 12, bls_power := some 12,
      tls_sde := none, vetting_passed := true, detection_time := "t", reviewed := false,
      is_discovered := none, notes := "", review_time := none, t0 := some 1,
      duration := some 1 } ?_
  · intro p hp
    simp [CandidateDatabase.dbInit, CandidateDatabase.load] at hp
  · rfl

end KSAS
